import Mathlib

/-!
Verification of rsyslog's libgcrypt-based crypto provider
(`src/runtime/libgcry.c`).

The C code is shallowly embedded: byte buffers become `List Nat` (each
element a byte value), the side-file's byte stream becomes a `List Nat`,
fallible operations return `Option`, and the external libgcrypt primitive
(cipher open / set key / set iv / encrypt / decrypt) is abstracted either
as boolean success flags or as function parameters, since the core only
calls it through that small contract.
-/

set_option autoImplicit false

/-! ### Padding scheme (`addPadding`, `removePadding`) -/

/-- Embeds `addPadding` (libgcry.c:360-371): appends
`(blkLength - len % blkLength) % blkLength` zero bytes to the buffer. -/
def addPadding (blkLength : Nat) (buf : List Nat) : List Nat :=
  buf ++ List.replicate ((blkLength - buf.length % blkLength) % blkLength) 0

/-- Embeds the `strchr(buf, 0x00)` call of `removePadding` (libgcry.c:380):
index of the first zero byte of the buffer, or `none` when there is none.
The C `strchr` scans memory without a length bound; the model treats the
logical buffer as the whole scanned region (equivalently, the byte just
past it is a NUL, in which case the in-range result below is unchanged). -/
def strchrZero : List Nat → Option Nat
  | [] => none
  | b :: rest => if b = 0 then some 0 else (strchrZero rest).map (· + 1)

/-- Embeds the compaction loop of `removePadding` (libgcry.c:385-389):
copies every non-zero byte forward, dropping the zero bytes. -/
def compactNonzero : List Nat → List Nat
  | [] => []
  | b :: rest => if b ≠ 0 then b :: compactNonzero rest else compactNonzero rest

/-- Embeds `removePadding` (libgcry.c:373-393): if the buffer has no zero
byte it is returned unchanged; otherwise the bytes before the first zero
are kept and the remaining bytes are compacted to their non-zero ones. -/
def removePadding (buf : List Nat) : List Nat :=
  match strchrZero buf with
  | none => buf
  | some i => buf.take i ++ compactNonzero (buf.drop i)

/-! ### Cipher session encrypt/decrypt (`rsgcryEncrypt`, `rsgcryDecrypt`)

The cipher primitive is abstracted as functions `E`, `D` on byte lists
(`gcry_cipher_encrypt` / `gcry_cipher_decrypt` acting in place on the
whole buffer); the primitive is assumed to succeed. -/

/-- Embeds `rsgcryEncrypt` (libgcry.c:548-567): a zero-length buffer is
returned untouched (the `FINALIZE` shortcut); otherwise the buffer is
padded to block alignment and handed to the cipher primitive `E`. -/
def rsgcryEncrypt (E : List Nat → List Nat) (blkLength : Nat) (buf : List Nat) : List Nat :=
  if buf.length = 0 then buf else E (addPadding blkLength buf)

/-- Embeds `rsgcryDecrypt` (libgcry.c:574-592): the buffer is handed to the
cipher primitive `D` and the padding of the result is removed. -/
def rsgcryDecrypt (D : List Nat → List Nat) (buf : List Nat) : List Nat :=
  removePadding (D buf)

/-! ### Record codec (`eiWriteRec`, `eiGetRecord`) -/

/-- Modelled from the spec: `EIF_MAX_RECTYPE_LEN` is defined in
`libgcry.h`, which is not among the sources; the spec and the file-header
comment (libgcry.c:20) fix the record-type hard limit at 31 bytes. -/
def EIF_MAX_RECTYPE_LEN : Nat := 31

/-- Modelled from the spec: `EIF_MAX_VALUE_LEN` is defined in `libgcry.h`,
which is not among the sources; the spec and the file-header comment
(libgcry.c:21) fix the value hard limit at 1023 bytes. -/
def EIF_MAX_VALUE_LEN : Nat := 1023

/-- Embeds `eiWriteRec` (libgcry.c:57-81) at the level of the bytes put on
the side-file stream: the record header (type plus colon), the value bytes
and a terminating LF, written as one vectored write. -/
def eiWriteRec (recHdr buf : List Nat) : List Nat :=
  recHdr ++ buf ++ [10]

/-- Embeds one bounded scanning loop of `eiGetRecord`
(libgcry.c:173-178 and 182-187): reads characters via `eiReadChar`
(end of stream acts as EOF), at most `fuel` of them, until the delimiter
`d` is read; returns the characters before the delimiter and the rest of
the stream, or `none` when EOF or the bound is hit first (in C the loop
then leaves `c ≠ d` and the caller aborts). -/
def scanUntil (d : Nat) : Nat → List Nat → Option (List Nat × List Nat)
  | _, [] => none
  | 0, _ :: _ => none
  | fuel + 1, c :: rest =>
    if c = d then some ([], rest)
    else
      match scanUntil d fuel rest with
      | some (acc, r) => some (c :: acc, r)
      | none => none

/-- Embeds `eiGetRecord` (libgcry.c:166-192). The record-type loop runs
its index `i` from `0` while `i < EIF_MAX_RECTYPE_LEN`, so up to 31 reads,
the last of which must be the colon. The value loop continues with the
same index from `i+1` while `i < EIF_MAX_VALUE_LEN`, so up to
`EIF_MAX_VALUE_LEN - rectype.length - 1` reads, the last of which must be
the LF. Returns the record type, the value and the unread rest. -/
def eiGetRecord (stream : List Nat) : Option (List Nat × List Nat × List Nat) :=
  match scanUntil 58 EIF_MAX_RECTYPE_LEN stream with
  | none => none
  | some (rectype, rest) =>
    match scanUntil 10 (EIF_MAX_VALUE_LEN - rectype.length - 1) rest with
    | none => none
    | some (value, rest2) => some (rectype, value, rest2)

/-! ### Hex decoding of IV records (`eiGetIV`) -/

/-- Embeds the per-character hex test of `eiGetIV` (libgcry.c:218-225):
a decimal digit or a lowercase `a`-`f` yields its nibble value, anything
else is the error branch. -/
def hexNibble (c : Nat) : Option Nat :=
  if 48 ≤ c ∧ c ≤ 57 then some (c - 48)
  else if 97 ≤ c ∧ c ≤ 102 then some (c - 97 + 10)
  else none

/-- Embeds the decoding loop of `eiGetIV` (libgcry.c:217-230): characters
at even positions set the high nibble of the next output byte, characters
at odd positions complete that byte. A trailing unpaired character is
still validated, and its high-nibble store goes past the last complete
output byte (in C this is a write to `iv[leniv]`, one past the allocated
buffer); the model returns only the complete bytes. -/
def decodeHexLoop : List Nat → Option (List Nat)
  | [] => some []
  | [c] =>
    match hexNibble c with
    | some _ => some []
    | none => none
  | c1 :: c2 :: rest =>
    match hexNibble c1, hexNibble c2 with
    | some hi, some lo =>
      match decodeHexLoop rest with
      | some bs => some ((hi * 16 + lo) :: bs)
      | none => none
    | _, _ => none

/-- Embeds `eiGetIV` (libgcry.c:194-233): reads one record, requires its
type to be `IV` (bytes 73,86), requires `value.length / 2 = leniv`
(integer division, as in the C comparison `valueLen/2 != leniv`), and
decodes the hex value. -/
def eiGetIV (stream : List Nat) (leniv : Nat) : Option (List Nat) :=
  match eiGetRecord stream with
  | none => none
  | some (rectype, value, _) =>
    if rectype = [73, 86] then
      if value.length / 2 = leniv then decodeHexLoop value else none
    else none

/-! ### Filetype check and IV recovery (`eiCheckFiletype`, `readIV`) -/

/-- Modelled from the spec: `RSGCRY_FILETYPE_NAME` is defined in
`libgcry.h`, which is not among the sources; the spec and the file-header
comment (libgcry.c:19) fix it as the 23 bytes of
`rsyslog-enrcyption-info` (with the historical transposition). -/
def RSGCRY_FILETYPE_NAME : List Nat :=
  [114, 115, 121, 115, 108, 111, 103, 45, 101, 110, 114, 99, 121, 112,
   116, 105, 111, 110, 45, 105, 110, 102, 111]

/-- The 33 header bytes `FILETYPE:` ++ name ++ LF compared by
`eiCheckFiletype` (libgcry.c:149-157). -/
def filetypeHeader : List Nat :=
  [70, 73, 76, 69, 84, 89, 80, 69, 58] ++ RSGCRY_FILETYPE_NAME ++ [10]

/-- Embeds `eiCheckFiletype` (libgcry.c:135-161) on a side-file whose
content is `content`: reads `filetypeHeader.length` bytes and succeeds
exactly when that many bytes exist and they equal the header. -/
def eiCheckFiletypeOk (content : List Nat) : Bool :=
  decide (filetypeHeader.length ≤ content.length) &&
    decide (content.take filetypeHeader.length = filetypeHeader)

/-- Embeds `readIV` (libgcry.c:471-492) once the side-file exists with
content `content` (the open poll loop has terminated): check the filetype
header, then read the IV record from the stream position after the header.
Returns the IV bytes, or `none` on any failure. -/
def readIV (content : List Nat) (blkLength : Nat) : Option (List Nat) :=
  if eiCheckFiletypeOk content then
    eiGetIV (content.drop filetypeHeader.length) blkLength
  else none

/-! ### Context (`gcryCtxNew`, `rsgcrySetKey`) -/

/-- Embeds `struct gcryctx_s`: algorithm id, mode id, stored key bytes
(`[]` models the NULL pointer of a fresh context) and stored key length. -/
structure GcryCtx where
  algo : Nat
  mode : Nat
  key : List Nat
  keyLen : Nat
deriving DecidableEq, Repr

/-- The libgcrypt constant `GCRY_CIPHER_AES128` (value 7 of
`enum gcry_cipher_algos`). -/
def GCRY_CIPHER_AES128 : Nat := 7

/-- The libgcrypt constant `GCRY_CIPHER_MODE_CBC` (value 3 of
`enum gcry_cipher_modes`). -/
def GCRY_CIPHER_MODE_CBC : Nat := 3

/-- Embeds `gcryCtxNew` (libgcry.c:330-338): `calloc` zeroes every field,
then the algorithm is set to AES-128 and the mode to CBC. -/
def gcryCtxNew : GcryCtx :=
  { algo := GCRY_CIPHER_AES128, mode := GCRY_CIPHER_MODE_CBC, key := [], keyLen := 0 }

/-- Embeds `rsgcrySetKey` (libgcry.c:398-414). The required key length of
the context's algorithm is obtained from the external
`gcry_cipher_get_algo_keylen`, abstracted as `reqOf`. On a length
mismatch the required length is returned and the context is untouched;
otherwise the key is copied into the context and 0 is returned. -/
def rsgcrySetKey (reqOf : Nat → Nat) (ctx : GcryCtx) (key : List Nat) : Nat × GcryCtx :=
  let reqKeyLen := reqOf ctx.algo
  if key.length ≠ reqKeyLen then (reqKeyLen, ctx)
  else (0, { ctx with key := key, keyLen := key.length })

/-! ### Cipher session construction (`rsgcryInitCrypt`, read mode) -/

/-- Return codes of the embedded operations (the `rsRetVal` values the
modelled paths of `rsgcryInitCrypt` can produce). -/
inductive RsRetVal where
  | ok
  | err
deriving DecidableEq, Repr

/-- Success flags of the external libgcrypt calls made by
`rsgcryInitCrypt`: `gcry_cipher_open`, `gcry_cipher_setkey`,
`gcry_cipher_setiv`. -/
structure GcryEnv where
  cipherOpenOk : Bool
  setkeyOk : Bool
  setivOk : Bool
deriving DecidableEq, Repr

/-- The cipher-session state a successful `rsgcryInitCrypt` hands back:
the algorithm and mode the cipher handle was opened with, the block
length, and the IV passed to `gcry_cipher_setiv` (`none` models the NULL
pointer left when `readIV` never stored an IV). -/
structure GcrySession where
  algo : Nat
  mode : Nat
  blkLength : Nat
  iv : Option (List Nat)
deriving DecidableEq, Repr

/-- Embeds `rsgcryInitCrypt` (libgcry.c:494-546) in read mode, with the
side-file already existing with content `content` (so the poll loop of
`readIV` terminates) and `blkOf` abstracting
`gcry_cipher_get_algo_blklen`. Each `(RsRetVal.err, none)` result models
an `ABORT_FINALIZE` path, after which `finalize_it` destroys the partial
session via `gcryfileDestruct`. The call `readIV(gf, &iv);` at
libgcry.c:524 discards the return code, exactly as the source does: a
failed `readIV` leaves `iv` at `none` and execution continues. -/
def rsgcryInitCryptRead (env : GcryEnv) (ctx : GcryCtx) (content : List Nat)
    (blkOf : Nat → Nat) : RsRetVal × Option GcrySession :=
  let blkLength := blkOf ctx.algo
  if env.cipherOpenOk = false then (RsRetVal.err, none)
  else if env.setkeyOk = false then (RsRetVal.err, none)
  else
    let iv := readIV content blkLength
    if env.setivOk = false then (RsRetVal.err, none)
    else (RsRetVal.ok, some { algo := ctx.algo, mode := ctx.mode, blkLength := blkLength, iv := iv })

/-! ### Side-file session close and destruct (`eiClose`, `gcryfileDestruct`) -/

/-- Embeds the side-file aspects of `struct gcryfile_s`: the descriptor
(`-1` is the closed sentinel), the lazily allocated read buffer, and the
bytes appended to the side file so far. -/
structure Gcryfile where
  fd : Int
  readBuf : Option (List Nat)
  written : List Nat
deriving DecidableEq, Repr

/-- Decimal digits (as byte values) of a natural number, as `snprintf`
with a decimal conversion produces them. -/
def natDecimal (n : Nat) : List Nat :=
  (Nat.toDigits 10 n).map Char.toNat

/-- Decimal representation (as byte values) of a signed value, as
`snprintf("%lld")` produces it: a minus sign followed by the digits of the
absolute value when negative, plain digits otherwise. -/
def intDecimal (i : Int) : List Nat :=
  if i < 0 then 45 :: natDecimal i.natAbs else natDecimal i.toNat

/-- Embeds `eiClose` (libgcry.c:292-309): nothing happens when the
descriptor is already the closed sentinel; otherwise an
`END:<decimal offset>` record write is attempted (`writeOk` abstracts
whether the `writev` succeeds; its result is discarded), the read buffer
is freed and the descriptor is closed. The function returns no status. -/
def eiClose (writeOk : Bool) (gf : Gcryfile) (offsLogfile : Int) : Gcryfile :=
  if gf.fd = -1 then gf
  else
    { fd := -1
      readBuf := none
      written :=
        if writeOk then gf.written ++ ([69, 78, 68, 58] ++ intDecimal offsLogfile ++ [10])
        else gf.written }

/-- Embeds `gcryfileDestruct` (libgcry.c:340-351): a NULL session gives
`r = 0` with nothing done; otherwise the side file is closed via `eiClose`
and the session freed. The second component records the side-file state
acted upon (`none` when no session was touched). -/
def gcryfileDestruct (writeOk : Bool) (gf : Option Gcryfile) (offsLogfile : Int) :
    Int × Option Gcryfile :=
  match gf with
  | none => (0, none)
  | some g => (0, some (eiClose writeOk g offsLogfile))

/-! ### Helper lemmas about the padding scheme -/

theorem compactNonzero_eq_filter (l : List Nat) :
    compactNonzero l = l.filter (fun b => b != 0) := by
  induction l with
  | nil => rfl
  | cons b rest ih =>
    by_cases hb : b = 0
    · subst hb; simp [compactNonzero, ih]
    · simp [compactNonzero, hb, ih]

theorem compactNonzero_replicate_zero (n : Nat) :
    compactNonzero (List.replicate n 0) = [] := by
  induction n with
  | zero => rfl
  | succ n ih => simp [List.replicate, compactNonzero, ih]

theorem strchrZero_eq_none (l : List Nat) (h : ∀ b ∈ l, b ≠ 0) :
    strchrZero l = none := by
  induction l with
  | nil => rfl
  | cons b rest ih =>
    have hb : b ≠ 0 := h b (List.mem_cons_self b rest)
    have hrest : ∀ x ∈ rest, x ≠ 0 := fun x hx => h x (List.mem_cons_of_mem b hx)
    simp [strchrZero, hb, ih hrest]

theorem strchrZero_lt_length (l : List Nat) (i : Nat) (h : strchrZero l = some i) :
    i < l.length := by
  induction l generalizing i with
  | nil => simp [strchrZero] at h
  | cons b rest ih =>
    by_cases hb : b = 0
    · simp [strchrZero, hb] at h
      simp only [List.length_cons]
      omega
    · simp [strchrZero, hb] at h
      obtain ⟨j, hj, hij⟩ := h
      have := ih j hj
      simp only [List.length_cons]
      omega

theorem strchrZero_append_zero (l ys : List Nat) (h : ∀ b ∈ l, b ≠ 0) :
    strchrZero (l ++ 0 :: ys) = some l.length := by
  induction l with
  | nil => simp [strchrZero]
  | cons b rest ih =>
    have hb : b ≠ 0 := h b (List.mem_cons_self b rest)
    have hrest : ∀ x ∈ rest, x ≠ 0 := fun x hx => h x (List.mem_cons_of_mem b hx)
    simp [strchrZero, hb, ih hrest]

theorem removePadding_no_zero (l : List Nat) (h : ∀ b ∈ l, b ≠ 0) :
    removePadding l = l := by
  unfold removePadding
  rw [strchrZero_eq_none l h]

theorem removePadding_append_zeros (l : List Nat) (n : Nat) (h : ∀ b ∈ l, b ≠ 0) :
    removePadding (l ++ List.replicate n 0) = l := by
  cases n with
  | zero => simpa using removePadding_no_zero l h
  | succ n =>
    rw [List.replicate_succ]
    have hs : strchrZero (l ++ 0 :: List.replicate n 0) = some l.length :=
      strchrZero_append_zero l _ h
    have hrp : removePadding (l ++ 0 :: List.replicate n 0) =
        (l ++ 0 :: List.replicate n 0).take l.length ++
          compactNonzero ((l ++ 0 :: List.replicate n 0).drop l.length) := by
      unfold removePadding; rw [hs]
    rw [hrp, List.take_left, List.drop_left]
    simp [compactNonzero, compactNonzero_replicate_zero]

/-! ### C7: `addPadding` alignment guarantees -/

/-- C7: for every buffer and positive block length, `addPadding` appends
exactly `(blkLength - length % blkLength) % blkLength` zero bytes, the
updated length is a multiple of the block length, and the number of bytes
added is below the block length. -/
theorem addPadding_spec (blkLength : Nat) (buf : List Nat) (hblk : 0 < blkLength) :
    addPadding blkLength buf =
      buf ++ List.replicate ((blkLength - buf.length % blkLength) % blkLength) 0 ∧
    (addPadding blkLength buf).length =
      buf.length + (blkLength - buf.length % blkLength) % blkLength ∧
    (addPadding blkLength buf).length % blkLength = 0 ∧
    (blkLength - buf.length % blkLength) % blkLength < blkLength := by
  have hlen : (addPadding blkLength buf).length =
      buf.length + (blkLength - buf.length % blkLength) % blkLength := by
    simp [addPadding]
  refine ⟨rfl, hlen, ?_, Nat.mod_lt _ hblk⟩
  rw [hlen]
  rcases Nat.eq_zero_or_pos (buf.length % blkLength) with hr | hr
  · rw [hr, Nat.sub_zero, Nat.mod_self, Nat.add_zero]
    exact hr
  · have hlt : blkLength - buf.length % blkLength < blkLength := Nat.sub_lt hblk hr
    rw [Nat.mod_eq_of_lt hlt]
    have hle : buf.length % blkLength ≤ blkLength := Nat.le_of_lt (Nat.mod_lt _ hblk)
    obtain ⟨q, hq⟩ : ∃ q, buf.length = blkLength * q + buf.length % blkLength :=
      ⟨buf.length / blkLength, (Nat.div_add_mod _ _).symm⟩
    calc (buf.length + (blkLength - buf.length % blkLength)) % blkLength
        = (blkLength * q + (buf.length % blkLength +
            (blkLength - buf.length % blkLength))) % blkLength := by
          rw [← Nat.add_assoc, ← hq]
      _ = (blkLength * q + blkLength) % blkLength := by rw [Nat.add_sub_cancel' hle]
      _ = 0 := by simp [Nat.add_mod, Nat.mul_mod_right, Nat.mod_self]

/-- Witness for C7 at block length 16 and a 3-byte buffer. -/
theorem addPadding_spec_witness :
    addPadding 16 [1, 2, 3] = [1, 2, 3] ++ List.replicate 13 0 ∧
    (addPadding 16 [1, 2, 3]).length % 16 = 0 :=
  ⟨(addPadding_spec 16 [1, 2, 3] (by decide)).1,
   (addPadding_spec 16 [1, 2, 3] (by decide)).2.2.1⟩

/-! ### C2: behavior of `removePadding` -/

/-- C2: if the buffer has no zero byte it is returned unchanged;
otherwise, from the first zero byte (index `i`) on, every zero byte is
removed: the result is the untouched prefix followed by the non-zero
bytes of the rest in their original relative order (a filter, hence a
sublist of the buffer), and the length shrinks to the number of bytes
kept. -/
theorem removePadding_spec (buf : List Nat) :
    ((∀ b ∈ buf, b ≠ 0) → removePadding buf = buf) ∧
    (∀ i, strchrZero buf = some i →
      removePadding buf = buf.take i ++ (buf.drop i).filter (fun b => b != 0) ∧
      (removePadding buf).length =
        i + ((buf.drop i).filter (fun b => b != 0)).length ∧
      (removePadding buf).Sublist buf) := by
  constructor
  · exact removePadding_no_zero buf
  · intro i hi
    have hilt : i < buf.length := strchrZero_lt_length buf i hi
    have hrp : removePadding buf = buf.take i ++ compactNonzero (buf.drop i) := by
      unfold removePadding; rw [hi]
    refine ⟨?_, ?_, ?_⟩
    · rw [hrp, compactNonzero_eq_filter]
    · rw [hrp, compactNonzero_eq_filter, List.length_append, List.length_take,
        min_eq_left (Nat.le_of_lt hilt)]
    · rw [hrp]
      have h2 : (compactNonzero (buf.drop i)).Sublist (buf.drop i) := by
        rw [compactNonzero_eq_filter]; exact List.filter_sublist _
      have h3 := List.Sublist.append_left h2 (buf.take i)
      rwa [List.take_append_drop] at h3

/-- Witness for C2 on the buffer `[1, 0, 2, 0]`, whose first zero byte is
at index 1. -/
theorem removePadding_spec_witness : removePadding [1, 0, 2, 0] = [1, 2] :=
  ((removePadding_spec [1, 0, 2, 0]).2 1 (by decide)).1

/-! ### C1: encrypt-then-decrypt round trip -/

/-- C1: for every zero-free buffer, encrypting with a session (which pads
to block alignment) and decrypting with the matching session (which
unpads) restores the buffer, assuming the cipher primitive `D` inverts
`E` and transforms in place (preserving length). -/
theorem rsgcry_encrypt_then_decrypt_id (E D : List Nat → List Nat) (blkLength : Nat)
    (buf : List Nat) (hInv : ∀ x, D (E x) = x) (hLen : ∀ x, (D x).length = x.length)
    (hz : ∀ b ∈ buf, b ≠ 0) :
    rsgcryDecrypt D (rsgcryEncrypt E blkLength buf) = buf := by
  by_cases h0 : buf.length = 0
  · have hnil : buf = [] := List.eq_nil_of_length_eq_zero h0
    subst hnil
    have hD : D [] = [] := List.eq_nil_of_length_eq_zero (by rw [hLen]; rfl)
    simp [rsgcryEncrypt, rsgcryDecrypt, hD, removePadding, strchrZero]
  · rw [rsgcryEncrypt, if_neg h0, rsgcryDecrypt, hInv, addPadding]
    exact removePadding_append_zeros buf _ hz

/-- Witness for C1 with the identity cipher, block length 16 and the
buffer `[1, 2, 3]`. -/
theorem rsgcry_encrypt_then_decrypt_id_witness :
    rsgcryDecrypt id (rsgcryEncrypt id 16 [1, 2, 3]) = [1, 2, 3] :=
  rsgcry_encrypt_then_decrypt_id id id 16 [1, 2, 3] (fun _ => rfl) (fun _ => rfl)
    (by decide)

/-! ### Helper lemmas about the record codec -/

theorem scanUntil_append_delim (d : Nat) (xs rest : List Nat) (fuel : Nat)
    (hd : d ∉ xs) (hf : xs.length < fuel) :
    scanUntil d fuel (xs ++ d :: rest) = some (xs, rest) := by
  induction xs generalizing fuel with
  | nil =>
    cases fuel with
    | zero => omega
    | succ f => simp [scanUntil]
  | cons x xs ih =>
    cases fuel with
    | zero => simp at hf
    | succ f =>
      have hx : x ≠ d := fun hxd => hd (by simp [hxd])
      have hd2 : d ∉ xs := fun hm => hd (List.mem_cons_of_mem _ hm)
      have hf2 : xs.length < f := by simp at hf; omega
      simp [scanUntil, hx, ih f hd2 hf2]

theorem scanUntil_fuel_exhausted (d : Nat) (xs ys : List Nat) (fuel : Nat)
    (hd : d ∉ xs) (hf : fuel ≤ xs.length) :
    scanUntil d fuel (xs ++ ys) = none := by
  induction fuel generalizing xs with
  | zero =>
    cases xs ++ ys with
    | nil => rfl
    | cons a l => rfl
  | succ f ih =>
    cases xs with
    | nil => simp at hf
    | cons x xs =>
      have hx : x ≠ d := fun hxd => hd (by simp [hxd])
      have hd2 : d ∉ xs := fun hm => hd (List.mem_cons_of_mem _ hm)
      have hf2 : f ≤ xs.length := by simp at hf; omega
      simp [scanUntil, hx, ih xs hd2 hf2]

theorem eiGetRecord_eq_none_of_scan1_none (s : List Nat)
    (h : scanUntil 58 EIF_MAX_RECTYPE_LEN s = none) : eiGetRecord s = none := by
  unfold eiGetRecord
  rw [h]

theorem eiGetRecord_eq_of_scan1_some (s t r : List Nat)
    (h : scanUntil 58 EIF_MAX_RECTYPE_LEN s = some (t, r)) :
    eiGetRecord s =
      match scanUntil 10 (EIF_MAX_VALUE_LEN - t.length - 1) r with
      | none => none
      | some (v, r2) => some (t, v, r2) := by
  unfold eiGetRecord
  rw [h]

theorem eiWriteRec_stream (t v rest : List Nat) :
    eiWriteRec (t ++ [58]) v ++ rest = t ++ 58 :: (v ++ 10 :: rest) := by
  simp [eiWriteRec]

/-! ### C3: record codec round trip and its real limits -/

/-- C3 (amended): writing a record (type without colon, value without LF)
and reading it back reproduces the type and the value exactly when the
type is at most 30 bytes and type length plus value length is at most
1021 bytes; a longer type, or a record beyond the combined bound, is
rejected by the reader. -/
theorem eiGetRecord_roundtrip (rectype value rest : List Nat)
    (hcolon : 58 ∉ rectype) (hlf : 10 ∉ value) :
    (rectype.length ≤ 30 → rectype.length + value.length ≤ 1021 →
      eiGetRecord (eiWriteRec (rectype ++ [58]) value ++ rest) =
        some (rectype, value, rest)) ∧
    (30 < rectype.length →
      eiGetRecord (eiWriteRec (rectype ++ [58]) value ++ rest) = none) ∧
    (rectype.length ≤ 30 → 1021 < rectype.length + value.length →
      eiGetRecord (eiWriteRec (rectype ++ [58]) value ++ rest) = none) := by
  have hstream : eiWriteRec (rectype ++ [58]) value ++ rest =
      rectype ++ 58 :: (value ++ 10 :: rest) := by
    simp [eiWriteRec]
  refine ⟨?_, ?_, ?_⟩
  · intro ht hv
    rw [hstream]
    have h1 : scanUntil 58 EIF_MAX_RECTYPE_LEN
        (rectype ++ 58 :: (value ++ 10 :: rest)) =
        some (rectype, value ++ 10 :: rest) :=
      scanUntil_append_delim 58 rectype _ _ hcolon
        (by unfold EIF_MAX_RECTYPE_LEN; omega)
    rw [eiGetRecord_eq_of_scan1_some _ _ _ h1]
    have h2 : scanUntil 10 (EIF_MAX_VALUE_LEN - rectype.length - 1)
        (value ++ 10 :: rest) = some (value, rest) :=
      scanUntil_append_delim 10 value _ _ hlf
        (by unfold EIF_MAX_VALUE_LEN; omega)
    rw [h2]
  · intro ht
    rw [hstream]
    apply eiGetRecord_eq_none_of_scan1_none
    exact scanUntil_fuel_exhausted 58 rectype _ _ hcolon
      (by unfold EIF_MAX_RECTYPE_LEN; omega)
  · intro ht hv
    rw [hstream]
    have h1 : scanUntil 58 EIF_MAX_RECTYPE_LEN
        (rectype ++ 58 :: (value ++ 10 :: rest)) =
        some (rectype, value ++ 10 :: rest) :=
      scanUntil_append_delim 58 rectype _ _ hcolon
        (by unfold EIF_MAX_RECTYPE_LEN; omega)
    rw [eiGetRecord_eq_of_scan1_some _ _ _ h1]
    have h2 : scanUntil 10 (EIF_MAX_VALUE_LEN - rectype.length - 1)
        (value ++ 10 :: rest) = none :=
      scanUntil_fuel_exhausted 10 value _ _ hlf
        (by unfold EIF_MAX_VALUE_LEN; omega)
    rw [h2]

/-- Counterexample to C3 as stated: a 31-byte record type (31 times `A`)
with a 1-byte value, and the 2-byte type `IV` with a 1020-byte value,
are both within the claimed limits (type at most 31, value at most 1023,
no colon in the type, no LF in the value), yet the reader rejects the
written record in both cases. -/
theorem eiGetRecord_limits_counterexample :
    ((List.replicate 31 65).length ≤ 31 ∧ ([48] : List Nat).length ≤ 1023 ∧
      eiGetRecord (eiWriteRec (List.replicate 31 65 ++ [58]) [48]) = none) ∧
    (([73, 86] : List Nat).length ≤ 31 ∧ (List.replicate 1020 97).length ≤ 1023 ∧
      eiGetRecord (eiWriteRec ([73, 86] ++ [58]) (List.replicate 1020 97)) = none) := by
  refine ⟨⟨by rw [List.length_replicate], by decide, ?_⟩,
          ⟨by decide, by rw [List.length_replicate]; decide, ?_⟩⟩
  · rw [← List.append_nil (eiWriteRec (List.replicate 31 65 ++ [58]) [48]),
        eiWriteRec_stream]
    apply eiGetRecord_eq_none_of_scan1_none
    exact scanUntil_fuel_exhausted 58 (List.replicate 31 65) _ _
      (by rw [List.mem_replicate]; omega) (by rw [List.length_replicate]; decide)
  · rw [← List.append_nil (eiWriteRec ([73, 86] ++ [58]) (List.replicate 1020 97)),
        eiWriteRec_stream]
    have h1 : scanUntil 58 EIF_MAX_RECTYPE_LEN
        ([73, 86] ++ 58 :: (List.replicate 1020 97 ++ 10 :: [])) =
        some ([73, 86], List.replicate 1020 97 ++ 10 :: []) :=
      scanUntil_append_delim 58 [73, 86] _ _ (by decide) (by decide)
    rw [eiGetRecord_eq_of_scan1_some _ _ _ h1]
    have h2 : scanUntil 10 (EIF_MAX_VALUE_LEN - ([73, 86] : List Nat).length - 1)
        (List.replicate 1020 97 ++ 10 :: []) = none :=
      scanUntil_fuel_exhausted 10 (List.replicate 1020 97) _ _
        (by rw [List.mem_replicate]; omega) (by rw [List.length_replicate]; decide)
    rw [h2]

/-- Witness for C3 (amended) on the record type `IV` with the 2-byte
value `ab`. -/
theorem eiGetRecord_roundtrip_witness :
    eiGetRecord (eiWriteRec ([73, 86] ++ [58]) [97, 98] ++ []) =
      some ([73, 86], [97, 98], []) :=
  (eiGetRecord_roundtrip [73, 86] [97, 98] [] (by decide) (by decide)).1
    (by decide) (by decide)

/-! ### C5: `eiGetIV` and odd-length hex values -/

/-- C5 (evaluation of the code at the failing input): the IV record value
`abc` (bytes 97, 98, 99) has odd length 3, yet with expected block length
1 the check `valueLen/2 != leniv` passes (3/2 = 1) and `eiGetIV` returns
success with the byte `0xab`; in C the loop additionally writes the third
nibble one byte past the allocated IV buffer. The claim (and the spec)
require odd-length input to be rejected. -/
theorem eiGetIV_accepts_odd_length :
    ([97, 98, 99] : List Nat).length % 2 = 1 ∧
    eiGetIV ([73, 86, 58] ++ [97, 98, 99] ++ [10]) 1 = some [171] := by
  constructor
  · decide
  · decide

/-! ### C4: `rsgcryInitCrypt` in read mode ignores `readIV` failures -/

/-- C4 (evaluation of the code at the failing input): on a side-file with
empty content the filetype check fails, so `readIV` fails; yet read-mode
`rsgcryInitCrypt` returns `RS_RET_OK` together with a session whose IV
was never read (the NULL pointer is handed to `gcry_cipher_setiv`),
because the return code of `readIV` at libgcry.c:524 is discarded. The
claim requires the construction to abort, release the partial resources
and report the failure. -/
theorem rsgcryInitCrypt_ok_despite_readIV_failure :
    readIV [] 16 = none ∧
    rsgcryInitCryptRead ⟨true, true, true⟩ gcryCtxNew [] (fun _ => 16) =
      (RsRetVal.ok,
        some { algo := GCRY_CIPHER_AES128, mode := GCRY_CIPHER_MODE_CBC,
               blkLength := 16, iv := none }) := by
  constructor
  · decide
  · decide

/-! ### C6: `rsgcrySetKey` key length validation -/

/-- C6: a key whose length differs from the algorithm's required key
length makes `rsgcrySetKey` return that required length (a positive
value) and leaves the context untouched; a key of exactly the required
length is stored in the context and 0 is returned. -/
theorem rsgcrySetKey_spec (reqOf : Nat → Nat) (ctx : GcryCtx) (key : List Nat)
    (hreq : 0 < reqOf ctx.algo) :
    (key.length ≠ reqOf ctx.algo →
      rsgcrySetKey reqOf ctx key = (reqOf ctx.algo, ctx) ∧
      0 < (rsgcrySetKey reqOf ctx key).1) ∧
    (key.length = reqOf ctx.algo →
      rsgcrySetKey reqOf ctx key =
        (0, { ctx with key := key, keyLen := key.length })) := by
  constructor
  · intro h
    constructor
    · simp [rsgcrySetKey, h]
    · simp [rsgcrySetKey, h]
      exact hreq
  · intro h
    simp [rsgcrySetKey, h]

/-- Witness for C6: required length 16, a 3-byte key is refused without
mutating the fresh context, a 16-byte key is stored. -/
theorem rsgcrySetKey_spec_witness :
    rsgcrySetKey (fun _ => 16) gcryCtxNew (List.replicate 3 7) = (16, gcryCtxNew) ∧
    rsgcrySetKey (fun _ => 16) gcryCtxNew (List.replicate 16 7) =
      (0, { gcryCtxNew with key := List.replicate 16 7, keyLen := 16 }) := by
  constructor
  · exact ((rsgcrySetKey_spec (fun _ => 16) gcryCtxNew (List.replicate 3 7)
      (by decide)).1 (by decide)).1
  · exact (rsgcrySetKey_spec (fun _ => 16) gcryCtxNew (List.replicate 16 7)
      (by decide)).2 (by decide)

/-! ### C8: `eiClose` releases resources and writes the END record -/

/-- C8: on an open side-file session, `eiClose` hands the
`END:<decimal offset>` record to the write primitive, and closes the
descriptor and frees the read buffer whether or not that write succeeds;
it returns no status to its caller. The offset bounds delimit the domain
of `%lld` (64-bit values), where the 21-byte `snprintf` buffer never
truncates. -/
theorem eiClose_spec (gf : Gcryfile) (offsLogfile : Int) (writeOk : Bool)
    (hopen : gf.fd ≠ -1)
    (hlo : -(2 ^ 63) ≤ offsLogfile) (hhi : offsLogfile < 2 ^ 63) :
    (eiClose writeOk gf offsLogfile).fd = -1 ∧
    (eiClose writeOk gf offsLogfile).readBuf = none ∧
    (eiClose true gf offsLogfile).written =
      gf.written ++ ([69, 78, 68, 58] ++ intDecimal offsLogfile ++ [10]) ∧
    (eiClose false gf offsLogfile).written = gf.written := by
  refine ⟨?_, ?_, ?_, ?_⟩ <;> simp [eiClose, hopen]

/-- Witness for C8: a session with open descriptor 3, closed at offset
12345. -/
theorem eiClose_spec_witness :
    (eiClose true { fd := 3, readBuf := some [], written := [5] } 12345).written =
      [5] ++ ([69, 78, 68, 58] ++ intDecimal 12345 ++ [10]) :=
  (eiClose_spec { fd := 3, readBuf := some [], written := [5] } 12345 true
    (by decide) (by decide) (by decide)).2.2.1

/-! ### C9: fresh context defaults -/

/-- C9: a context built by `gcryCtxNew` carries algorithm AES-128, mode
CBC and a zeroed key, and any cipher session derived from it by
`rsgcryInitCryptRead` without intervening `rsgcrySetAlgo` or
`rsgcrySetMode` calls was opened with AES-128 in CBC mode. -/
theorem gcryCtxNew_defaults :
    (gcryCtxNew.algo = GCRY_CIPHER_AES128 ∧ gcryCtxNew.mode = GCRY_CIPHER_MODE_CBC ∧
      gcryCtxNew.key = [] ∧ gcryCtxNew.keyLen = 0) ∧
    (∀ (env : GcryEnv) (content : List Nat) (blkOf : Nat → Nat) (s : GcrySession),
      rsgcryInitCryptRead env gcryCtxNew content blkOf = (RsRetVal.ok, some s) →
      s.algo = GCRY_CIPHER_AES128 ∧ s.mode = GCRY_CIPHER_MODE_CBC) := by
  refine ⟨⟨rfl, rfl, rfl, rfl⟩, ?_⟩
  intro env content blkOf s h
  simp only [rsgcryInitCryptRead] at h
  by_cases h1 : env.cipherOpenOk = false
  · rw [if_pos h1] at h
    exact RsRetVal.noConfusion (congrArg Prod.fst h)
  · rw [if_neg h1] at h
    by_cases h2 : env.setkeyOk = false
    · rw [if_pos h2] at h
      exact RsRetVal.noConfusion (congrArg Prod.fst h)
    · rw [if_neg h2] at h
      by_cases h3 : env.setivOk = false
      · rw [if_pos h3] at h
        exact RsRetVal.noConfusion (congrArg Prod.fst h)
      · rw [if_neg h3] at h
        simp only [Prod.mk.injEq, Option.some.injEq] at h
        rw [← h.2]
        exact ⟨rfl, rfl⟩

/-- Witness for C9: the read-mode session derived from a fresh context on
an empty side-file carries AES-128 and CBC. -/
theorem gcryCtxNew_defaults_witness :
    ({ algo := 7, mode := 3, blkLength := 16, iv := none } : GcrySession).algo =
      GCRY_CIPHER_AES128 ∧
    ({ algo := 7, mode := 3, blkLength := 16, iv := none } : GcrySession).mode =
      GCRY_CIPHER_MODE_CBC :=
  gcryCtxNew_defaults.2 ⟨true, true, true⟩ [] (fun _ => 16)
    { algo := 7, mode := 3, blkLength := 16, iv := none } (by decide)

/-! ### C10: `gcryfileDestruct` on a NULL session -/

/-- C10: destructing a NULL session returns 0 and performs no operation:
no side-file state is touched and nothing is written, for any offset and
whatever the write primitive would do. -/
theorem gcryfileDestruct_null_noop (writeOk : Bool) (offsLogfile : Int) :
    gcryfileDestruct writeOk none offsLogfile = (0, none) := rfl
